import Mathlib

/-!
# Batch categorization job engine — verification of the specification

This file embeds the batch-categorization subsystem of the youtube-manager-ai
repository and proves the specified properties about it.

The repository snapshot contains the frontend (the SSE stream reader
`connectSSE` in `CategorizationProgressSSE`, the `useSSE` hook, the progress
rendering) but not the backend job engine; backend-side definitions below are
modelled from the specification and carry a doc comment saying so.
-/

namespace YtJobs

/-- The five job/snapshot statuses, from the `ProgressData` union type in the
frontend (`CategorizationProgressSSE`): running, paused, completed, error,
cancelled. The spec's Job status enum has the same five states. -/
inductive Status where
  | running
  | paused
  | completed
  | error
  | cancelled
deriving DecidableEq

/-- Terminal statuses: exactly those on which the frontend reader stops
(`completed`, `error`, `cancelled`); the spec calls them terminal. -/
def Status.isTerminal : Status → Bool
  | Status.completed => true
  | Status.error => true
  | Status.cancelled => true
  | _ => false

/-- The snapshot payload, from the `ProgressData` interface in the frontend:
status, total, completed, failed, current_video (nullable), paused, and an
optional error message. -/
structure ProgressData where
  status : Status
  total : Nat
  completed : Nat
  failed : Nat
  current_video : Option String
  paused : Bool
  error : Option String
deriving DecidableEq

/-- From `connectSSE`: a line is interpreted as a snapshot only when it starts
with the prefix "data: "; the payload is the line with the first 6 characters
removed (`line.substring(6)`), decoded by the external `JSON.parse`, which is
modelled by the abstract decoder `parse` (`none` models a parse failure). -/
def dataPayload (parse : String → Option ProgressData) (line : String) :
    Option ProgressData :=
  if line.startsWith "data: " then parse (line.drop 6) else none

/-- From `connectSSE`: the inner `for` loop over the lines of one received
chunk. Returns the snapshots applied (the `setProgress` calls, in order) and
whether a terminal snapshot was seen (the `isCancelled = true; break` path,
taken for status completed, error or cancelled). Lines that do not start with
"data: " and data lines whose payload fails to decode are skipped. -/
def processChunkLines (parse : String → Option ProgressData) :
    List String → List ProgressData × Bool
  | [] => ([], false)
  | line :: rest =>
    if line.startsWith "data: " then
      match parse (line.drop 6) with
      | some d =>
        if d.status.isTerminal then ([d], true)
        else
          let r := processChunkLines parse rest
          (d :: r.1, r.2)
      | none => processChunkLines parse rest
    else processChunkLines parse rest

/-- From `connectSSE`: the outer `while (!isCancelled)` read loop. The
transport delivers a finite sequence of chunks, each represented by its list
of newline-separated lines (`chunk.split("\n")`); the loop ends when the
reader reports `done` (transport closed) or after a terminal snapshot set
`isCancelled`. Returns the full ordered sequence of snapshots applied. -/
def connectSSE (parse : String → Option ProgressData) :
    List (List String) → List ProgressData
  | [] => []
  | chunk :: chunks =>
    let r := processChunkLines parse chunk
    if r.2 then r.1 else r.1 ++ connectSSE parse chunks

/-- All decoded snapshots carried by the data lines of a line sequence. -/
def snapshotsOf (parse : String → Option ProgressData) (lines : List String) :
    List ProgressData :=
  lines.filterMap (dataPayload parse)

/-- The prefix of a snapshot sequence up to and including its first terminal
snapshot (the whole sequence when no snapshot is terminal). -/
def takeThroughTerminal : List ProgressData → List ProgressData
  | [] => []
  | d :: ds =>
    if d.status.isTerminal then [d] else d :: takeThroughTerminal ds

/-- Whether some snapshot in the list is terminal. -/
def hasTerminalSnap (l : List ProgressData) : Bool :=
  l.any (fun d => d.status.isTerminal)

/-- From the `useSSE` hook: the events an `EventSource` can deliver to its
handlers (`onopen`, `onmessage`, `onerror`). -/
inductive SSEEvent where
  | opened
  | message (data : String)
  | errored
deriving DecidableEq

/-- From the `useSSE` hook: the observable connection state — the
`isConnected` flag, whether `eventSource.close()` has been called, and the
ordered list of snapshots delivered to `onMessage`. -/
structure SSEConn where
  isConnected : Bool
  closed : Bool
  applied : List ProgressData
deriving DecidableEq

/-- Initial connection state of `useSSE` (`isConnected` starts false). -/
def SSEConn.init : SSEConn := { isConnected := false, closed := false, applied := [] }

/-- From the `useSSE` hook: the event handlers. `onopen` sets `isConnected`;
`onmessage` runs `JSON.parse` (the abstract `parse`) and forwards a decoded
snapshot, swallowing parse failures; `onerror` clears `isConnected` and calls
`eventSource.close()`. A closed `EventSource` delivers no further events, so
every handler leaves a closed connection unchanged. -/
def handleEvent (parse : String → Option ProgressData) (s : SSEConn) :
    SSEEvent → SSEConn
  | SSEEvent.opened => if s.closed then s else { s with isConnected := true }
  | SSEEvent.message d =>
    if s.closed then s
    else
      match parse d with
      | some p => { s with applied := s.applied ++ [p] }
      | none => s
  | SSEEvent.errored =>
    if s.closed then s else { s with isConnected := false, closed := true }

/-- From the `useSSE` hook: the connection state after a finite sequence of
`EventSource` events has been delivered. -/
def runSSE (parse : String → Option ProgressData) (events : List SSEEvent) :
    SSEConn :=
  events.foldl (handleEvent parse) SSEConn.init

/-- From `CategorizationProgressSSE`: the displayed percentage,
`progress.total > 0 ? (progress.completed / progress.total) * 100 : 0`,
with exact rational division standing for the number division. -/
def progressPercentage (p : ProgressData) : ℚ :=
  if 0 < p.total then ((p.completed : ℚ) / (p.total : ℚ)) * 100 else 0

/-- A JSON value, for stating the wire format of stream snapshots. -/
inductive Json where
  | jstr (s : String)
  | jnum (n : Nat)
  | jbool (b : Bool)
  | jnull
  | jobj (fields : List (String × Json))

/-- The keys of a JSON object, in order. -/
def Json.keys : Json → List String
  | Json.jobj fs => fs.map Prod.fst
  | _ => []

/-- Lookup of the first field with a given key in a field list. -/
def lookupPairs : List (String × Json) → String → Option Json
  | [], _ => none
  | (k, v) :: rest, key => if key = k then some v else lookupPairs rest key

/-- Field lookup on a JSON value (none on non-objects). -/
def Json.lookupField (j : Json) (key : String) : Option Json :=
  match j with
  | Json.jobj fs => lookupPairs fs key
  | _ => none

/-- The wire name of a status, matching the lowercase string union of the
frontend's `ProgressData.status`. -/
def Status.wireName : Status → String
  | Status.running => "running"
  | Status.paused => "paused"
  | Status.completed => "completed"
  | Status.error => "error"
  | Status.cancelled => "cancelled"

/-- Modelled from the spec: the backend Progress Publisher's snapshot
serializer is not in the repository snapshot (only its frontend consumer is).
Per the spec's stream interface, each pushed event is the JSON object
`(status, total, completed, failed, current_video, paused, error?)`, where
`current_video` is a string or null and `error` is present only when set. -/
def encodeSnapshot (p : ProgressData) : Json :=
  Json.jobj
    ([("status", Json.jstr p.status.wireName),
      ("total", Json.jnum p.total),
      ("completed", Json.jnum p.completed),
      ("failed", Json.jnum p.failed),
      ("current_video",
        match p.current_video with
        | some v => Json.jstr v
        | none => Json.jnull),
      ("paused", Json.jbool p.paused)] ++
      (match p.error with
       | some e => [("error", Json.jstr e)]
       | none => []))

/-- Modelled from the spec: the backend Job record is not in the repository
snapshot. Per the spec's data model, a Job holds owner, status, total,
completed, failed, current item, error message, and the paused flag; in
addition the engine's worker-loop bookkeeping is tracked by `pending`
(queued, not yet pulled items), `inflight` (pulled items whose result is not
yet recorded) and the `cancelRequested` control flag. -/
structure Job where
  owner : Nat
  status : Status
  total : Nat
  completed : Nat
  failed : Nat
  pending : Nat
  inflight : Nat
  currentItem : Option String
  errorMsg : Option String
  pausedFlag : Bool
  cancelRequested : Bool
deriving DecidableEq

/-- Modelled from the spec: Job Store `create` allocates a job in Running
state with `completed = 0`, `failed = 0`, `paused = false`, and the work
queue seeded with all `total` video ids. -/
def Job.create (owner total : Nat) : Job :=
  { owner := owner, status := Status.running, total := total, completed := 0,
    failed := 0, pending := total, inflight := 0, currentItem := none,
    errorMsg := none, pausedFlag := false, cancelRequested := false }

/-- Whether a job's status is terminal. -/
def Job.isTerminal (j : Job) : Bool := j.status.isTerminal

/-- Modelled from the spec: `request_pause` sets the paused flag and moves a
Running job to Paused (status otherwise unchanged). -/
def Job.doPause (j : Job) : Job :=
  { j with pausedFlag := true,
           status := if j.status = Status.running then Status.paused else j.status }

/-- Modelled from the spec: `request_resume` clears the paused flag and moves
a Paused job back to Running. -/
def Job.doResume (j : Job) : Job :=
  { j with pausedFlag := false,
           status := if j.status = Status.paused then Status.running else j.status }

/-- Modelled from the spec: `request_cancel` records that cancellation was
requested; cancellation is cooperative, so the status changes only when the
workers have drained. -/
def Job.doCancel (j : Job) : Job := { j with cancelRequested := true }

/-- Modelled from the spec: the events that mutate one job's state — the
engine workers pulling an item (`set_current`) and recording its result
(`record_result`), the control operations, and the engine's final
`mark_terminal` determination (carrying a job-level fault when one
occurred). -/
inductive JobEvent where
  | pullItem (videoId : String)
  | recordResult (success : Bool)
  | requestPause
  | requestResume
  | requestCancel
  | finalize (fault : Option String)
deriving DecidableEq

/-- Modelled from the spec: the serialized per-job transition function of the
Job Store and Batch Job Engine (all mutation funnels through the store, so a
job's history is a sequence of these atomic steps). `none` means the event is
not enabled / the operation fails:
a worker pulls an item only while Running, unpaused, uncancelled, with work
queued; a result is recorded for an in-flight item of a non-terminal job,
incrementing `completed` (and `failed` on failure); pause, resume and cancel
fail on terminal jobs; the engine finalizes once no item is in flight and the
queue is drained or cancellation was requested, choosing Error on a job-level
fault, Cancelled when cancellation was requested (the spec's control state
machine: once workers drain after a cancel request, the job becomes
Cancelled), and Completed otherwise. Terminal states are sticky: no event is
enabled on them. -/
def applyEvent (j : Job) : JobEvent → Option Job
  | JobEvent.pullItem v =>
    if j.status = Status.running ∧ j.pausedFlag = false ∧
        j.cancelRequested = false ∧ 0 < j.pending then
      some { j with pending := j.pending - 1, inflight := j.inflight + 1,
                    currentItem := some v }
    else none
  | JobEvent.recordResult success =>
    if 0 < j.inflight ∧ j.isTerminal = false then
      some { j with inflight := j.inflight - 1, completed := j.completed + 1,
                    failed := if success then j.failed else j.failed + 1,
                    currentItem := none }
    else none
  | JobEvent.requestPause =>
    if j.isTerminal then none else some j.doPause
  | JobEvent.requestResume =>
    if j.isTerminal then none else some j.doResume
  | JobEvent.requestCancel =>
    if j.isTerminal then none else some j.doCancel
  | JobEvent.finalize fault =>
    if j.isTerminal = false ∧ j.inflight = 0 ∧
        (j.pending = 0 ∨ j.cancelRequested = true) then
      some { j with
        status :=
          if fault.isSome then Status.error
          else if j.cancelRequested then Status.cancelled else Status.completed,
        errorMsg := fault }
    else none

/-- Modelled from the spec: the job states reachable from creation through
the serialized store operations; every observed snapshot of the job is a
point-in-time copy of such a state. -/
inductive Reachable (owner total : Nat) : Job → Prop
  | create : Reachable owner total (Job.create owner total)
  | step {j j' : Job} (e : JobEvent) :
      Reachable owner total j → applyEvent j e = some j' →
      Reachable owner total j'

/-- The bookkeeping invariant maintained by every store operation: failures
are a subset of processed items, and processed, in-flight, and queued items
partition the job's total. -/
def Job.wellCounted (j : Job) : Prop :=
  j.failed ≤ j.completed ∧ j.completed + j.inflight + j.pending = j.total

/-- Modelled from the spec: the Progress Publisher copies the job's observable
fields into a snapshot. -/
def Job.snapshot (j : Job) : ProgressData :=
  { status := j.status, total := j.total, completed := j.completed,
    failed := j.failed, current_video := j.currentItem,
    paused := j.pausedFlag, error := j.errorMsg }

/-- Modelled from the spec: record the results of all still in-flight items
(cancellation lets in-flight calls finish), one `record_result` per item. -/
def recordAll : Nat → Job → Job
  | 0, j => j
  | n + 1, j =>
    match applyEvent j (JobEvent.recordResult true) with
    | some j' => recordAll n j'
    | none => j

/-- Modelled from the spec: after a cancel request the workers stop pulling
work, in-flight calls finish, and the engine marks the job terminal. -/
def drainAndFinalize (j : Job) : Job :=
  match applyEvent (recordAll j.inflight j) (JobEvent.finalize none) with
  | some j' => j'
  | none => recordAll j.inflight j

/-- Modelled from the spec: the Job Control API's error taxonomy for the
operations verified here. -/
inductive CtlError where
  | notFound
  | invalidState
  | invalidArgument
deriving DecidableEq

/-- Job identifiers are opaque strings (`{job_id: string}`). -/
abbrev JobId := String

/-- Modelled from the spec: the Job Store registry of job state keyed by job
id. -/
def JobStore := List (JobId × Job)

/-- Lookup of a job by id. -/
def JobStore.find (s : JobStore) (id : JobId) : Option Job :=
  match s with
  | [] => none
  | (k, j) :: rest => if id = k then some j else JobStore.find rest id

/-- Replacement of the job stored under an id. -/
def JobStore.replace (s : JobStore) (id : JobId) (j : Job) : JobStore :=
  match s with
  | [] => []
  | (k, old) :: rest =>
    if id = k then (k, j) :: rest else (k, old) :: JobStore.replace rest id j

/-- Allocation of a fresh job id for the store. -/
def freshId (s : JobStore) : JobId :=
  String.append "job-" (toString (List.length s))

/-- Modelled from the spec: the shared shape of the control operations
`pause`, `resume`, `cancel` — fail with NotFound when the job id is unknown,
with InvalidState when the job is already terminal, and otherwise apply the
corresponding store mutation; the typed failure is returned synchronously to
the caller. -/
def controlOp (f : Job → Job) (s : JobStore) (id : JobId) :
    Except CtlError JobStore :=
  match JobStore.find s id with
  | none => Except.error CtlError.notFound
  | some j =>
    if j.isTerminal then Except.error CtlError.invalidState
    else Except.ok (JobStore.replace s id (f j))

/-- Modelled from the spec: `pause(job_id)`. -/
def pauseJob : JobStore → JobId → Except CtlError JobStore :=
  controlOp Job.doPause

/-- Modelled from the spec: `resume(job_id)`. -/
def resumeJob : JobStore → JobId → Except CtlError JobStore :=
  controlOp Job.doResume

/-- Modelled from the spec: `cancel(job_id)`. -/
def cancelJob : JobStore → JobId → Except CtlError JobStore :=
  controlOp Job.doCancel

/-- Modelled from the spec: `start(video_ids, concurrency)` — fails with
InvalidArgument on an empty video list or non-positive concurrency (rejected
synchronously, job never created); otherwise creates a Running job with
`total` equal to the number of videos and returns its job id to the caller
immediately, the engine proceeding asynchronously. -/
def start (s : JobStore) (owner : Nat) (videoIds : List String)
    (concurrency : Nat) : Except CtlError (JobId × JobStore) :=
  if videoIds = [] ∨ concurrency = 0 then Except.error CtlError.invalidArgument
  else
    Except.ok (freshId s, (freshId s, Job.create owner videoIds.length) :: s)

/-- The system state after a start request: the job id observable for the
request (none when the request failed) and the resulting job store. -/
def startOp (s : JobStore) (owner : Nat) (videoIds : List String)
    (concurrency : Nat) : Option JobId × JobStore :=
  match start s owner videoIds concurrency with
  | Except.ok (id, s') => (some id, s')
  | Except.error _ => (none, s)

/-- A concrete decoder standing for `JSON.parse` in witnesses; it rejects
every payload, as `JSON.parse` does on malformed input. -/
def nullParse : String → Option ProgressData := fun _ => none

/-- A concrete snapshot with a quarter of the work done, for witnesses. -/
def quarterSnap : ProgressData :=
  { status := Status.running, total := 4, completed := 1, failed := 0,
    current_video := none, paused := false, error := none }

/-- A concrete snapshot of an empty batch, for witnesses. -/
def emptySnap : ProgressData :=
  { status := Status.running, total := 0, completed := 0, failed := 0,
    current_video := none, paused := false, error := none }

/-- A concrete fresh job over two videos, for witnesses. -/
def jA : Job := Job.create 7 2

/-- `jA` after a worker pulled the first video. -/
def jB : Job :=
  { jA with pending := 1, inflight := 1, currentItem := some "v1" }

/-- `jB` after the job was paused. -/
def jC : Job := { jB with status := Status.paused, pausedFlag := true }

/-- `jB` after the in-flight result was recorded successfully. -/
def jD : Job := { jB with inflight := 0, completed := 1, currentItem := none }

/-- A concrete terminal (completed) job, for witnesses. -/
def jDone : Job :=
  { Job.create 3 1 with status := Status.completed, completed := 1, pending := 0 }

/-- A concrete store holding one terminal job under id "a", for witnesses. -/
def storeDone : JobStore := [("a", jDone)]

/-! ## Lemmas about the stream reader -/

theorem snapshotsOf_cons_none (parse : String → Option ProgressData)
    (line : String) (rest : List String) (h : dataPayload parse line = none) :
    snapshotsOf parse (line :: rest) = snapshotsOf parse rest := by
  simp only [snapshotsOf, List.filterMap_cons, h]

theorem snapshotsOf_cons_some (parse : String → Option ProgressData)
    (line : String) (rest : List String) (d : ProgressData)
    (h : dataPayload parse line = some d) :
    snapshotsOf parse (line :: rest) = d :: snapshotsOf parse rest := by
  simp only [snapshotsOf, List.filterMap_cons, h]

theorem hasTerminalSnap_cons (d : ProgressData) (ds : List ProgressData) :
    hasTerminalSnap (d :: ds) = (d.status.isTerminal || hasTerminalSnap ds) :=
  rfl

theorem processChunkLines_eq (parse : String → Option ProgressData)
    (c : List String) :
    processChunkLines parse c =
      (takeThroughTerminal (snapshotsOf parse c),
        hasTerminalSnap (snapshotsOf parse c)) := by
  induction c with
  | nil => rfl
  | cons line rest ih =>
    cases hs : line.startsWith "data: " with
    | false =>
      have hd : dataPayload parse line = none := by
        simp only [dataPayload, hs, Bool.false_eq_true, if_false]
      rw [snapshotsOf_cons_none parse line rest hd]
      simp only [processChunkLines, hs, Bool.false_eq_true, if_false]
      exact ih
    | true =>
      cases hp : parse (line.drop 6) with
      | none =>
        have hd : dataPayload parse line = none := by
          simp only [dataPayload, hs, if_true, hp]
        rw [snapshotsOf_cons_none parse line rest hd]
        simp only [processChunkLines, hs, if_true, hp]
        exact ih
      | some d =>
        have hd : dataPayload parse line = some d := by
          simp only [dataPayload, hs, if_true, hp]
        rw [snapshotsOf_cons_some parse line rest d hd]
        cases ht : d.status.isTerminal with
        | true =>
          simp only [processChunkLines, hs, if_true, hp, ht,
            takeThroughTerminal, hasTerminalSnap, List.any_cons,
            Bool.true_or]
        | false =>
          simp only [processChunkLines, hs, if_true, hp, ht,
            Bool.false_eq_true, if_false, takeThroughTerminal,
            hasTerminalSnap, List.any_cons, Bool.false_or, ih]

theorem processChunkLines_fst (parse : String → Option ProgressData)
    (c : List String) :
    (processChunkLines parse c).1 =
      takeThroughTerminal (snapshotsOf parse c) := by
  rw [processChunkLines_eq]

theorem processChunkLines_snd (parse : String → Option ProgressData)
    (c : List String) :
    (processChunkLines parse c).2 = hasTerminalSnap (snapshotsOf parse c) := by
  rw [processChunkLines_eq]

theorem takeThroughTerminal_of_no_terminal (l : List ProgressData)
    (h : hasTerminalSnap l = false) : takeThroughTerminal l = l := by
  induction l with
  | nil => rfl
  | cons d ds ih =>
    rw [hasTerminalSnap_cons, Bool.or_eq_false_iff] at h
    rw [takeThroughTerminal, if_neg (by simp [h.1]), ih h.2]

theorem takeThroughTerminal_append (l₁ l₂ : List ProgressData) :
    takeThroughTerminal (l₁ ++ l₂) =
      if hasTerminalSnap l₁ then takeThroughTerminal l₁
      else l₁ ++ takeThroughTerminal l₂ := by
  induction l₁ with
  | nil =>
    rw [List.nil_append, if_neg (by simp [hasTerminalSnap]), List.nil_append]
  | cons d ds ih =>
    rw [List.cons_append, takeThroughTerminal, takeThroughTerminal,
      hasTerminalSnap_cons]
    by_cases ht : d.status.isTerminal = true
    · rw [if_pos ht, if_pos ht, if_pos (by rw [ht, Bool.true_or])]
    · have ht' : d.status.isTerminal = false := by simpa using ht
      rw [if_neg ht, if_neg ht, ih, ht', Bool.false_or]
      by_cases h2 : hasTerminalSnap ds = true
      · rw [if_pos h2, if_pos h2]
      · rw [if_neg h2, if_neg h2, List.cons_append]

theorem connectSSE_eq (parse : String → Option ProgressData)
    (chunks : List (List String)) :
    connectSSE parse chunks =
      takeThroughTerminal (snapshotsOf parse chunks.flatten) := by
  induction chunks with
  | nil => rfl
  | cons c cs ih =>
    have hsnap : snapshotsOf parse (c :: cs).flatten =
        snapshotsOf parse c ++ snapshotsOf parse cs.flatten := by
      rw [List.flatten_cons, snapshotsOf, List.filterMap_append]
      rfl
    rw [hsnap, takeThroughTerminal_append]
    simp only [connectSSE, processChunkLines_fst, processChunkLines_snd]
    by_cases h : hasTerminalSnap (snapshotsOf parse c) = true
    · rw [if_pos h, if_pos h]
    · rw [if_neg h, if_neg h, ih,
        takeThroughTerminal_of_no_terminal _ (by simpa using h)]

theorem mem_dropLast_takeThroughTerminal {d : ProgressData} :
    ∀ l : List ProgressData, d ∈ (takeThroughTerminal l).dropLast →
      d.status.isTerminal = false := by
  intro l
  induction l with
  | nil => intro h; simp [takeThroughTerminal] at h
  | cons a as ih =>
    intro h
    cases ht : a.status.isTerminal with
    | true =>
      rw [takeThroughTerminal, if_pos (by rw [ht])] at h
      simp at h
    | false =>
      rw [takeThroughTerminal, if_neg (by simp [ht])] at h
      cases hx : takeThroughTerminal as with
      | nil => rw [hx] at h; simp at h
      | cons b bs =>
        rw [hx, List.dropLast_cons₂] at h
        rcases List.mem_cons.mp h with rfl | h2
        · exact ht
        · exact ih (by rw [hx]; exact h2)

/-! ## Lemmas about the `useSSE` connection state -/

theorem handleEvent_closed (parse : String → Option ProgressData)
    {s : SSEConn} (h : s.closed = true) (e : SSEEvent) :
    handleEvent parse s e = s := by
  cases e <;> simp [handleEvent, h]

theorem foldl_handleEvent_closed (parse : String → Option ProgressData)
    {s : SSEConn} (h : s.closed = true) :
    ∀ events : List SSEEvent, events.foldl (handleEvent parse) s = s := by
  intro events
  induction events with
  | nil => rfl
  | cons e es ih =>
    rw [List.foldl_cons, handleEvent_closed parse h e]
    exact ih

theorem handleEvent_ok (parse : String → Option ProgressData) {s : SSEConn}
    (hs : s.closed = true → s.isConnected = false) (e : SSEEvent) :
    (handleEvent parse s e).closed = true →
      (handleEvent parse s e).isConnected = false := by
  cases e with
  | opened =>
    cases hcs : s.closed with
    | false => simp [handleEvent, hcs]
    | true => simpa [handleEvent, hcs] using hs hcs
  | message d =>
    cases hcs : s.closed with
    | false =>
      cases hp : parse d with
      | none => simp [handleEvent, hcs, hp]
      | some p => simp [handleEvent, hcs, hp]
    | true => simpa [handleEvent, hcs] using hs hcs
  | errored =>
    cases hcs : s.closed with
    | false => simp [handleEvent, hcs]
    | true => simpa [handleEvent, hcs] using hs hcs

theorem foldl_handleEvent_ok (parse : String → Option ProgressData) :
    ∀ (events : List SSEEvent) (s : SSEConn),
      (s.closed = true → s.isConnected = false) →
      ((events.foldl (handleEvent parse) s).closed = true →
        (events.foldl (handleEvent parse) s).isConnected = false) := by
  intro events
  induction events with
  | nil => intro s hs; exact hs
  | cons e es ih =>
    intro s hs
    rw [List.foldl_cons]
    exact ih (handleEvent parse s e) (handleEvent_ok parse hs e)

theorem runSSE_ok (parse : String → Option ProgressData)
    (events : List SSEEvent) :
    (runSSE parse events).closed = true →
      (runSSE parse events).isConnected = false :=
  foldl_handleEvent_ok parse events SSEConn.init
    (by intro h; simp [SSEConn.init] at h)

theorem runSSE_after_error (parse : String → Option ProgressData)
    (pre post : List SSEEvent) :
    runSSE parse (pre ++ SSEEvent.errored :: post) =
      handleEvent parse (runSSE parse pre) SSEEvent.errored := by
  unfold runSSE
  rw [List.foldl_append, List.foldl_cons]
  apply foldl_handleEvent_closed
  cases hcs : (List.foldl (handleEvent parse) SSEConn.init pre).closed with
  | false => simp [handleEvent, hcs]
  | true => simp [handleEvent, hcs]

/-! ## Claims about the stream subscription (frontend source) -/

/-- Claim C3: for every subscription, the sequence of snapshots applied by the
stream reader is exactly the decoded data-line snapshots up to and including
the first terminal one (completed, error or cancelled): the reader stops
consuming immediately after a terminal snapshot, and while the transport is
alive it never stops after a non-terminal snapshot (every snapshot other than
the last applied one is non-terminal). -/
theorem subscription_ends_at_first_terminal_snapshot
    (parse : String → Option ProgressData) (chunks : List (List String)) :
    connectSSE parse chunks =
      takeThroughTerminal (snapshotsOf parse chunks.flatten) ∧
    ∀ d ∈ (connectSSE parse chunks).dropLast, d.status.isTerminal = false := by
  refine ⟨connectSSE_eq parse chunks, ?_⟩
  intro d hd
  rw [connectSSE_eq parse chunks] at hd
  exact mem_dropLast_takeThroughTerminal _ hd

/-- Witness for C3 at a concrete stream: one chunk with a single data line
whose payload the decoder rejects, so no snapshot is applied. -/
theorem subscription_ends_at_first_terminal_snapshot_witness :
    connectSSE nullParse [["data: hi"]] =
      takeThroughTerminal
        (snapshotsOf nullParse ([["data: hi"]] : List (List String)).flatten) :=
  (subscription_ends_at_first_terminal_snapshot nullParse [["data: hi"]]).1

/-- Claim C9: in the stream reader, only lines starting with "data: " are
interpreted as snapshots, and a data line whose payload fails to decode is
skipped without ending the subscription: removing such a line from the stream
does not change the sequence of applied snapshots, so every later well-formed
snapshot is still processed. -/
theorem bad_data_lines_skipped (parse : String → Option ProgressData)
    (pre post : List (List String)) (c₁ c₂ : List String) (bad : String)
    (h : bad.startsWith "data: " = false ∨ parse (bad.drop 6) = none) :
    connectSSE parse (pre ++ (c₁ ++ bad :: c₂) :: post) =
      connectSSE parse (pre ++ (c₁ ++ c₂) :: post) := by
  have hbad : dataPayload parse bad = none := by
    rcases h with h | h
    · rw [dataPayload, if_neg (by simp [h])]
    · rw [dataPayload, h, ite_self]
  have hsn : snapshotsOf parse (pre ++ (c₁ ++ bad :: c₂) :: post).flatten =
      snapshotsOf parse (pre ++ (c₁ ++ c₂) :: post).flatten := by
    rw [List.flatten_append, List.flatten_append, List.flatten_cons,
      List.flatten_cons]
    simp only [snapshotsOf, List.filterMap_append, List.filterMap_cons, hbad]
  rw [connectSSE_eq, connectSSE_eq, hsn]

/-- Witness for C9 at a concrete stream: an undecodable data line is dropped
and the later well-formed snapshot is still applied. -/
theorem bad_data_lines_skipped_witness :
    nullParse (String.drop "data: %%%" 6) = none ∧
    connectSSE nullParse [["data: %%%", "data: ok"]] =
      connectSSE nullParse [["data: ok"]] :=
  ⟨rfl,
    bad_data_lines_skipped nullParse [] [] [] ["data: ok"] "data: %%%"
      (Or.inr rfl)⟩

/-- Claim C8: if the transport errors before a terminal snapshot, the `useSSE`
subscription ends and is not re-established: after the error event the event
source is closed and disconnected, no further snapshots are applied on that
subscription (whatever events follow), and the resulting state is exactly the
one obtained by stopping at the error. -/
theorem transport_error_ends_subscription
    (parse : String → Option ProgressData) (pre post : List SSEEvent) :
    (runSSE parse (pre ++ SSEEvent.errored :: post)).closed = true ∧
    (runSSE parse (pre ++ SSEEvent.errored :: post)).isConnected = false ∧
    (runSSE parse (pre ++ SSEEvent.errored :: post)).applied =
      (runSSE parse pre).applied ∧
    runSSE parse (pre ++ SSEEvent.errored :: post) =
      runSSE parse (pre ++ [SSEEvent.errored]) := by
  have h1 := runSSE_after_error parse pre post
  have h2 := runSSE_after_error parse pre ([] : List SSEEvent)
  refine ⟨?_, ?_, ?_, by rw [h1, ← h2]⟩
  · rw [h1]
    cases hcs : (runSSE parse pre).closed with
    | false => simp [handleEvent, hcs]
    | true => simp [handleEvent, hcs]
  · rw [h1]
    cases hcs : (runSSE parse pre).closed with
    | false => simp [handleEvent, hcs]
    | true => simpa [handleEvent, hcs] using runSSE_ok parse pre hcs
  · rw [h1]
    cases hcs : (runSSE parse pre).closed with
    | false => simp [handleEvent, hcs]
    | true => simp [handleEvent, hcs]

/-- Claim C10: the displayed progress percentage is the guarded division of
the frontend — `completed / total * 100` when `total > 0` and exactly `0`
when `total = 0` — so it is always a well-defined number. -/
theorem progress_percentage_guarded (p : ProgressData) :
    (0 < p.total →
      progressPercentage p = ((p.completed : ℚ) / (p.total : ℚ)) * 100) ∧
    (p.total = 0 → progressPercentage p = 0) := by
  constructor
  · intro h
    simp [progressPercentage, h]
  · intro h
    simp [progressPercentage, h]

/-- Witness for C10 at concrete snapshots: one quarter done gives 25, and an
empty batch gives 0. -/
theorem progress_percentage_guarded_witness :
    0 < quarterSnap.total ∧ progressPercentage quarterSnap = 25 ∧
      emptySnap.total = 0 ∧ progressPercentage emptySnap = 0 := by
  refine ⟨by norm_num [quarterSnap], ?_, rfl,
    (progress_percentage_guarded emptySnap).2 rfl⟩
  have h := (progress_percentage_guarded quarterSnap).1 (by norm_num [quarterSnap])
  rw [h]
  norm_num [quarterSnap]

/-! ## Lemmas about the job state machine -/

theorem applyEvent_wellCounted {j j' : Job} (e : JobEvent)
    (hw : j.wellCounted) (h : applyEvent j e = some j') : j'.wellCounted := by
  obtain ⟨h1, h2⟩ := hw
  cases e with
  | pullItem v =>
    rw [applyEvent] at h
    split at h
    · rename_i hc
      obtain ⟨-, -, -, hp⟩ := hc
      injection h with h
      subst h
      exact ⟨h1, by simp [Job.wellCounted]; omega⟩
    · exact absurd h (by simp)
  | recordResult success =>
    rw [applyEvent] at h
    split at h
    · rename_i hc
      obtain ⟨hi, -⟩ := hc
      injection h with h
      subst h
      refine ⟨?_, by simp [Job.wellCounted]; omega⟩
      cases success <;> simp <;> omega
    · exact absurd h (by simp)
  | requestPause =>
    rw [applyEvent] at h
    split at h
    · exact absurd h (by simp)
    · injection h with h
      subst h
      exact ⟨h1, h2⟩
  | requestResume =>
    rw [applyEvent] at h
    split at h
    · exact absurd h (by simp)
    · injection h with h
      subst h
      exact ⟨h1, h2⟩
  | requestCancel =>
    rw [applyEvent] at h
    split at h
    · exact absurd h (by simp)
    · injection h with h
      subst h
      exact ⟨h1, h2⟩
  | finalize fault =>
    rw [applyEvent] at h
    split at h
    · injection h with h
      subst h
      exact ⟨h1, h2⟩
    · exact absurd h (by simp)

theorem reachable_wellCounted {owner total : Nat} {j : Job}
    (h : Reachable owner total j) : j.wellCounted := by
  induction h with
  | create => exact ⟨Nat.le_refl 0, by simp [Job.create, Job.wellCounted]⟩
  | step e hr heq ih => exact applyEvent_wellCounted e ih heq

theorem status_not_active_of_terminal {s : Status} (h : s.isTerminal = true) :
    s ≠ Status.running ∧ s ≠ Status.paused := by
  cases s <;> simp_all [Status.isTerminal]

theorem applyEvent_terminal_none {j : Job} (h : j.isTerminal = true)
    (e : JobEvent) : applyEvent j e = none := by
  obtain ⟨hr, hp⟩ := status_not_active_of_terminal h
  cases e with
  | pullItem v =>
    rw [applyEvent, if_neg]
    intro hc
    exact hr hc.1
  | recordResult success =>
    rw [applyEvent, if_neg]
    intro hc
    rw [h] at hc
    exact absurd hc.2 (by simp)
  | requestPause => rw [applyEvent, if_pos h]
  | requestResume => rw [applyEvent, if_pos h]
  | requestCancel => rw [applyEvent, if_pos h]
  | finalize fault =>
    rw [applyEvent, if_neg]
    intro hc
    rw [h] at hc
    exact absurd hc.1 (by simp)

theorem recordAll_spec :
    ∀ (n : Nat) (j : Job), j.isTerminal = false → j.inflight = n →
      (recordAll n j).inflight = 0 ∧
      (recordAll n j).status = j.status ∧
      (recordAll n j).cancelRequested = j.cancelRequested ∧
      (recordAll n j).pending = j.pending ∧
      (recordAll n j).total = j.total ∧
      (recordAll n j).completed = j.completed + n := by
  intro n
  induction n with
  | zero =>
    intro j hterm hinf
    exact ⟨hinf, rfl, rfl, rfl, rfl, rfl⟩
  | succ n ih =>
    intro j hterm hinf
    have happ : applyEvent j (JobEvent.recordResult true) =
        some { j with inflight := j.inflight - 1,
                      completed := j.completed + 1, failed := j.failed,
                      currentItem := none } := by
      rw [applyEvent, if_pos ⟨by omega, hterm⟩]
      rfl
    rw [recordAll, happ]
    have ihx := ih
      { j with inflight := j.inflight - 1,
               completed := j.completed + 1, failed := j.failed,
               currentItem := none }
      hterm (by show j.inflight - 1 = n; omega)
    obtain ⟨x1, x2, x3, x4, x5, x6⟩ := ihx
    refine ⟨x1, x2, x3, x4, x5, ?_⟩
    rw [x6]
    show j.completed + 1 + n = j.completed + (n + 1)
    omega

theorem drainAndFinalize_cancelled {j : Job} (hterm : j.isTerminal = false)
    (hcan : j.cancelRequested = true) :
    (drainAndFinalize j).status = Status.cancelled ∧
    (drainAndFinalize j).completed = j.completed + j.inflight ∧
    (drainAndFinalize j).total = j.total := by
  obtain ⟨x1, x2, x3, x4, x5, x6⟩ :=
    recordAll_spec j.inflight j hterm rfl
  have hdterm : (recordAll j.inflight j).isTerminal = false := by
    show (recordAll j.inflight j).status.isTerminal = false
    rw [x2]
    exact hterm
  have happ : applyEvent (recordAll j.inflight j) (JobEvent.finalize none) =
      some { recordAll j.inflight j with
        status :=
          if (none : Option String).isSome then Status.error
          else if (recordAll j.inflight j).cancelRequested then Status.cancelled
          else Status.completed,
        errorMsg := none } := by
    rw [applyEvent, if_pos ⟨hdterm, x1, Or.inr (by rw [x3, hcan])⟩]
  rw [drainAndFinalize, happ]
  refine ⟨?_, x6, x5⟩
  show (if (none : Option String).isSome then Status.error
        else if (recordAll j.inflight j).cancelRequested then Status.cancelled
        else Status.completed) = Status.cancelled
  rw [x3, hcan]
  rfl

/-! ## Claims about the job engine and control API (spec-modelled) -/

/-- Claim C1: at every reachable job state — hence at every observed snapshot
of the job over its whole lifetime — the counters satisfy
`0 <= failed <= completed <= total`. -/
theorem snapshot_counters_invariant (owner total : Nat) (j : Job)
    (h : Reachable owner total j) :
    0 ≤ (Job.snapshot j).failed ∧
    (Job.snapshot j).failed ≤ (Job.snapshot j).completed ∧
    (Job.snapshot j).completed ≤ (Job.snapshot j).total := by
  obtain ⟨h1, h2⟩ := reachable_wellCounted h
  refine ⟨Nat.zero_le _, ?_, ?_⟩ <;> simp [Job.snapshot] <;> omega

/-- Witness for C1 at a concrete reachable state: a job over two videos after
one item was pulled and recorded. -/
theorem snapshot_counters_invariant_witness :
    0 ≤ (Job.snapshot jD).failed ∧
    (Job.snapshot jD).failed ≤ (Job.snapshot jD).completed ∧
    (Job.snapshot jD).completed ≤ (Job.snapshot jD).total :=
 by
  have r1 : Reachable 7 2 jB :=
    Reachable.step (JobEvent.pullItem "v1") Reachable.create (by decide)
  have r2 : Reachable 7 2 jD :=
    Reachable.step (JobEvent.recordResult true) r1 (by decide)
  exact snapshot_counters_invariant 7 2 jD r2

/-- Claim C2: an accepted start request (non-empty video list, positive
concurrency) synchronously returns the fresh job id — not a finished batch
result: the job stored under the returned id is still Running with
`completed = 0` and `total` equal to the number of videos, the engine
proceeding asynchronously from that state. -/
theorem start_returns_job_id_immediately (s : JobStore) (owner : Nat)
    (ids : List String) (c : Nat) (h1 : ids ≠ []) (h2 : 0 < c) :
    start s owner ids c =
      Except.ok (freshId s, (freshId s, Job.create owner ids.length) :: s) ∧
    JobStore.find ((freshId s, Job.create owner ids.length) :: s) (freshId s) =
      some (Job.create owner ids.length) ∧
    (Job.create owner ids.length).status = Status.running ∧
    (Job.create owner ids.length).completed = 0 ∧
    (Job.create owner ids.length).total = ids.length := by
  have hcond : ¬(ids = [] ∨ c = 0) := by
    rintro (hc | hc)
    · exact h1 hc
    · omega
  refine ⟨?_, ?_, rfl, rfl, rfl⟩
  · simp only [start]
    rw [if_neg hcond]
  · rw [JobStore.find, if_pos rfl]

/-- Witness for C2 at a concrete request: two video ids, concurrency 10. -/
theorem start_returns_job_id_immediately_witness :
    (["a", "b"] : List String) ≠ [] ∧ 0 < 10 ∧
    (start [] 0 ["a", "b"] 10 =
      Except.ok (freshId [],
        (freshId [], Job.create 0 (["a", "b"] : List String).length) :: []) ∧
    JobStore.find
        ((freshId [], Job.create 0 (["a", "b"] : List String).length) :: [])
        (freshId []) =
      some (Job.create 0 (["a", "b"] : List String).length) ∧
    (Job.create 0 (["a", "b"] : List String).length).status = Status.running ∧
    (Job.create 0 (["a", "b"] : List String).length).completed = 0 ∧
    (Job.create 0 (["a", "b"] : List String).length).total =
      (["a", "b"] : List String).length) :=
  ⟨by decide, by decide,
    start_returns_job_id_immediately [] 0 ["a", "b"] 10 (by decide) (by decide)⟩

/-- Claim C4: the control operations pause, resume and cancel fail with
NotFound when the job id is unknown and with InvalidState when the job is
already terminal, and each failure is the operation's synchronous, typed
result — never silently ignored. -/
theorem control_ops_typed_failures (s : JobStore) (id : JobId) :
    (JobStore.find s id = none →
      pauseJob s id = Except.error CtlError.notFound ∧
      resumeJob s id = Except.error CtlError.notFound ∧
      cancelJob s id = Except.error CtlError.notFound) ∧
    (∀ j : Job, JobStore.find s id = some j → j.isTerminal = true →
      pauseJob s id = Except.error CtlError.invalidState ∧
      resumeJob s id = Except.error CtlError.invalidState ∧
      cancelJob s id = Except.error CtlError.invalidState) := by
  constructor
  · intro h
    refine ⟨?_, ?_, ?_⟩ <;> simp only [pauseJob, resumeJob, cancelJob, controlOp, h]
  · intro j hj hterm
    refine ⟨?_, ?_, ?_⟩ <;>
      simp only [pauseJob, resumeJob, cancelJob, controlOp, hj, hterm, if_true]

/-- Witness for C4 at a concrete store holding one completed job: an unknown
id yields NotFound and the terminal job yields InvalidState, on all three
operations. -/
theorem control_ops_typed_failures_witness :
    JobStore.find storeDone "zz" = none ∧
    pauseJob storeDone "zz" = Except.error CtlError.notFound ∧
    resumeJob storeDone "zz" = Except.error CtlError.notFound ∧
    cancelJob storeDone "zz" = Except.error CtlError.notFound ∧
    JobStore.find storeDone "a" = some jDone ∧
    jDone.isTerminal = true ∧
    pauseJob storeDone "a" = Except.error CtlError.invalidState ∧
    resumeJob storeDone "a" = Except.error CtlError.invalidState ∧
    cancelJob storeDone "a" = Except.error CtlError.invalidState := by
  have h1 := (control_ops_typed_failures storeDone "zz").1 (by decide)
  have h2 := (control_ops_typed_failures storeDone "a").2 jDone (by decide)
    (by decide)
  exact ⟨by decide, h1.1, h1.2.1, h1.2.2, by decide, by decide,
    h2.1, h2.2.1, h2.2.2⟩

/-- Claim C5: a start request with an empty video list fails synchronously
with InvalidArgument; no job is created, the store is unchanged and no job id
is observable for the request. -/
theorem start_empty_fails_invalidArgument (s : JobStore) (owner c : Nat) :
    start s owner [] c = Except.error CtlError.invalidArgument ∧
    startOp s owner [] c = (none, s) := by
  have h : start s owner [] c = Except.error CtlError.invalidArgument := by
    unfold start
    rw [if_pos (Or.inl rfl)]
  exact ⟨h, by simp [startOp, h]⟩

/-- Claim C6: every snapshot pushed on the stream is a JSON object whose keys
are exactly status, total, completed, failed, current_video, paused, plus
error exactly when an error message is set; status carries one of the five
wire names, the three counters are numbers, current_video is a string or
null, and paused is a boolean. -/
theorem snapshot_wire_format (p : ProgressData) :
    (encodeSnapshot p).keys =
      ["status", "total", "completed", "failed", "current_video", "paused"] ++
        (match p.error with
         | some _ => ["error"]
         | none => []) ∧
    (encodeSnapshot p).lookupField "status" =
      some (Json.jstr p.status.wireName) ∧
    (p.status.wireName = "running" ∨ p.status.wireName = "paused" ∨
      p.status.wireName = "completed" ∨ p.status.wireName = "error" ∨
      p.status.wireName = "cancelled") ∧
    (encodeSnapshot p).lookupField "total" = some (Json.jnum p.total) ∧
    (encodeSnapshot p).lookupField "completed" =
      some (Json.jnum p.completed) ∧
    (encodeSnapshot p).lookupField "failed" = some (Json.jnum p.failed) ∧
    (encodeSnapshot p).lookupField "current_video" =
      some (match p.current_video with
            | some v => Json.jstr v
            | none => Json.jnull) ∧
    (encodeSnapshot p).lookupField "paused" = some (Json.jbool p.paused) ∧
    (encodeSnapshot p).lookupField "error" =
      (match p.error with
       | some e => some (Json.jstr e)
       | none => none) := by
  rcases p with ⟨st, total, completed, failed, cv, paused, err⟩
  refine ⟨?_, rfl, ?_, rfl, rfl, rfl, rfl, rfl, ?_⟩
  · cases err <;> rfl
  · cases st <;> simp [Status.wireName]
  · cases err <;> rfl

/-- Claim C7: a cancel requested while the job is paused still takes effect —
on every reachable paused, non-terminal state the cancel operation succeeds
and, once the in-flight work drains and the engine finalizes, the job is
Cancelled with `completed <= total`; terminal states admit no further events,
so no counter changes after the terminal snapshot. -/
theorem cancel_while_paused_takes_effect (owner total : Nat) (j : Job)
    (hr : Reachable owner total j) (_hp : j.pausedFlag = true)
    (ht : j.isTerminal = false) :
    (applyEvent j JobEvent.requestCancel = some j.doCancel ∧
      (j.doCancel).cancelRequested = true ∧
      (drainAndFinalize j.doCancel).status = Status.cancelled ∧
      (drainAndFinalize j.doCancel).completed ≤
        (drainAndFinalize j.doCancel).total) ∧
    ∀ (t : Job) (e : JobEvent), t.isTerminal = true →
      applyEvent t e = none := by
  refine ⟨⟨?_, rfl, ?_, ?_⟩, fun t e hterm => applyEvent_terminal_none hterm e⟩
  · rw [applyEvent, if_neg (by simp [ht])]
  · exact (@drainAndFinalize_cancelled j.doCancel ht rfl).1
  · obtain ⟨-, hcomp, htot⟩ := @drainAndFinalize_cancelled j.doCancel ht rfl
    rw [hcomp, htot]
    obtain ⟨-, h2⟩ := reachable_wellCounted hr
    show j.completed + j.inflight ≤ j.total
    omega

/-- Witness for C7 at a concrete reachable paused state: a job over two
videos, one item in flight, paused, then cancelled. -/
theorem cancel_while_paused_takes_effect_witness :
    applyEvent jC JobEvent.requestCancel = some jC.doCancel ∧
    (jC.doCancel).cancelRequested = true ∧
    (drainAndFinalize jC.doCancel).status = Status.cancelled ∧
    (drainAndFinalize jC.doCancel).completed ≤
      (drainAndFinalize jC.doCancel).total :=
 by
  have r1 : Reachable 7 2 jB :=
    Reachable.step (JobEvent.pullItem "v1") Reachable.create (by decide)
  have r2 : Reachable 7 2 jC :=
    Reachable.step JobEvent.requestPause r1 (by decide)
  exact (cancel_while_paused_takes_effect 7 2 jC r2 (by decide) (by decide)).1

end YtJobs
